import Mathlib

/-!
Verification of the expiredis batch key-expiry tool (main.go).

The embedding models the core of `main.go`:
- `matchTTL` is a direct translation of the Go function `matchTTL`.
- `processKey` models the Go function `processKey`. The remote Redis calls
  (`TTL`, `DEL`, `EXPIRE`) are modelled by a per-key environment `KeyEnv`
  giving each call's outcome, and the function additionally returns the list
  of Redis calls it issued, in order.
- The scan loop of `main` is modelled by `batchLoop` (the per-key loop over
  one batch) and `mainLoop` (the outer cursor loop). The outcomes of the
  successive `SCAN` fetches (transport/parse failure, or success with a new
  cursor and a batch of keys) are supplied as a finite trace; `mainLoop`
  returns `none` when the trace is exhausted before the run terminates.
- The stats goroutine applies increments in receive order and every send is
  an unbuffered rendezvous that happens before the next loop step, so the
  final snapshot taken at shutdown is the plain sum of all increments; it is
  modelled by the `Stats` record threaded through `mainLoop`.

Go `int` values (cursor, TTLs, limit, counters) are modelled as `Int`.
-/

/-- Run configuration: the flag-derived globals of main.go that the core
scan/process logic reads (`dryRun`, `limit`, `ttlSubtract`, `ttlSet`,
`deleteKeys`, `ttlMin`). -/
structure Config where
  dryRun : Bool
  limit : Int
  ttlSubtract : Int
  ttlSet : Int
  deleteKeys : Bool
  ttlMin : Int
deriving DecidableEq, Repr

/-- Translation of Go `matchTTL(ttl, ttlMin int) bool`. -/
def matchTTL (ttl : Int) (ttlMin : Int) : Bool :=
  -- No minimum TTL
  if ttlMin = 0 then true
  -- Minimum TTL of a positive integer
  else if ttlMin > 0 ∧ ttl > ttlMin then true
  -- No TTL, key won't expire
  else if ttlMin = -1 ∧ ttl = -1 then true
  else false

/-- A remote Redis call issued by `processKey`, with its arguments. -/
inductive RedisCall where
  | ttl (key : String)
  | del (key : String)
  | expire (key : String) (seconds : Int)
deriving DecidableEq, Repr

/-- Whether a Redis call mutates the store (`DEL` and `EXPIRE` do,
`TTL` does not). -/
def RedisCall.isMutating : RedisCall → Bool
  | .ttl _ => false
  | .del _ => true
  | .expire _ _ => true

/-- Whether a Redis call is an `EXPIRE`. -/
def RedisCall.isExpire : RedisCall → Bool
  | .expire _ _ => true
  | _ => false

/-- Outcomes the remote store gives for the calls `processKey` may issue on
one key: the `TTL` fetch (`none` models a failed fetch), and success flags
for `DEL` and `EXPIRE`. -/
structure KeyEnv where
  ttlResult : Option Int
  delOk : Bool
  expireOk : Bool
deriving DecidableEq, Repr

/-- The part of Go `processKey` after the optional TTL fetch: the
`matchTTL` gate followed by the delete / subtract-TTL / set-TTL branches.
`ttl` is the Go local variable `ttl` (0 when no fetch was done), `calls`
the calls issued so far. Returns the `expired` result and all calls
issued. -/
def processKeyBody (cfg : Config) (env : KeyEnv) (key : String) (ttl : Int)
    (calls : List RedisCall) : Bool × List RedisCall :=
  if ¬ matchTTL ttl cfg.ttlMin then (false, calls)
  else if cfg.deleteKeys then
    if cfg.dryRun then (true, calls)
    else if env.delOk then (true, calls ++ [RedisCall.del key])
    else (false, calls ++ [RedisCall.del key])
  else if cfg.ttlSubtract > 0 then
    if cfg.dryRun then (true, calls)
    else
      if env.expireOk then (true, calls ++ [RedisCall.expire key (ttl - cfg.ttlSubtract)])
      else (false, calls ++ [RedisCall.expire key (ttl - cfg.ttlSubtract)])
  else if cfg.ttlSet > 0 then
    if cfg.dryRun then (true, calls)
    else if env.expireOk then (true, calls ++ [RedisCall.expire key cfg.ttlSet])
    else (false, calls ++ [RedisCall.expire key cfg.ttlSet])
  else (false, calls)

/-- Translation of Go `processKey(c, key) (expired bool)`: fetch the TTL only
if `ttlMin != 0 || ttlSubtract != 0` (on fetch failure return not-expired),
otherwise leave `ttl` at its zero value; then run `processKeyBody`.
Also returns the list of Redis calls issued. -/
def processKey (cfg : Config) (env : KeyEnv) (key : String) : Bool × List RedisCall :=
  if cfg.ttlMin ≠ 0 ∨ cfg.ttlSubtract ≠ 0 then
    match env.ttlResult with
    | none => (false, [RedisCall.ttl key])
    | some t => processKeyBody cfg env key t [RedisCall.ttl key]
  else
    processKeyBody cfg env key 0 []

/-- C1: matchTTL is total and returns: true for every ttl when ttlMin = 0;
true iff ttl > ttlMin when ttlMin > 0, with the strict boundary
matchTTL ttlMin ttlMin = false and matchTTL (ttlMin+1) ttlMin = true;
true iff ttl = -1 when ttlMin = -1; and false for every other combination
(any ttlMin < -1). -/
theorem matchTTL_spec :
    (∀ ttl : Int, matchTTL ttl 0 = true)
    ∧ (∀ ttl m : Int, m > 0 → (matchTTL ttl m = true ↔ ttl > m))
    ∧ (∀ m : Int, m > 0 → matchTTL m m = false ∧ matchTTL (m + 1) m = true)
    ∧ (∀ ttl : Int, matchTTL ttl (-1) = true ↔ ttl = -1)
    ∧ (∀ ttl m : Int, m < -1 → matchTTL ttl m = false) := by
  refine ⟨?_, ?_, ?_, ?_, ?_⟩
  · intro ttl
    simp [matchTTL]
  · intro ttl m hm
    simp only [matchTTL]
    constructor
    · intro h
      by_contra hle
      simp [show ¬ (m = 0) by omega, show ¬ (m > 0 ∧ ttl > m) by omega,
        show ¬ (m = -1 ∧ ttl = -1) by omega] at h
    · intro h
      simp [show ¬ (m = 0) by omega, show m > 0 ∧ ttl > m from ⟨hm, h⟩]
  · intro m hm
    constructor
    · simp only [matchTTL]
      rw [if_neg (show ¬ (m = 0) by omega), if_neg (show ¬ (m > 0 ∧ m > m) by omega),
        if_neg (show ¬ (m = -1 ∧ m = -1) by omega)]
    · simp [matchTTL, show ¬ (m = 0) by omega, show m > 0 ∧ m + 1 > m from ⟨hm, by omega⟩]
  · intro ttl
    constructor
    · intro h
      by_contra hne
      simp [matchTTL, show (-1 : Int) ≠ 0 by omega, show ¬ ((-1 : Int) > 0 ∧ ttl > -1) by omega,
        hne] at h
    · intro h
      subst h
      simp [matchTTL]
  · intro ttl m hm
    simp [matchTTL, show ¬ (m = 0) by omega, show ¬ (m > 0 ∧ ttl > m) by omega,
      show ¬ (m = -1 ∧ ttl = -1) by omega]

/-- Witness for matchTTL_spec at concrete inputs: instantiates each
hypothesis-guarded conjunct at m = 3 (and m = -2 for the last). -/
theorem matchTTL_spec_witness :
    ((3 : Int) > 0 ∧ (matchTTL 7 3 = true ↔ (7 : Int) > 3))
    ∧ ((3 : Int) > 0 ∧ matchTTL 3 3 = false ∧ matchTTL 4 3 = true)
    ∧ ((-2 : Int) < -1 ∧ matchTTL 5 (-2) = false) :=
  ⟨⟨by decide, matchTTL_spec.2.1 7 3 (by decide)⟩,
   ⟨by decide, by
      have h := matchTTL_spec.2.2.1 3 (by decide)
      exact ⟨h.1, by have := h.2; simpa using this⟩⟩,
   ⟨by decide, matchTTL_spec.2.2.2.2 5 (-2) (by decide)⟩⟩

/-- Result of the per-key loop of `main` over one fetched batch, entered with
the running counter `scan.total`: the new `total`, the `complete` latch, the
number of keys reported expired (each sent as +1 to the expired stat), the
keys actually passed to `processKey` in order, and all Redis calls those
invocations issued. -/
structure BatchOut where
  total : Int
  complete : Bool
  expired : Int
  processed : List String
  calls : List RedisCall
deriving DecidableEq, Repr

/-- The per-key loop of `main` (lines 98-110): for each key of the batch,
increment `total`; if `limit >= 0 && total >= limit`, set `complete` and
break (the current key and the rest of the batch are dropped); otherwise
invoke `processKey`. Each key carries its `KeyEnv` giving the store's
responses for it. -/
def batchLoop (cfg : Config) (keys : List (String × KeyEnv)) (total : Int) : BatchOut :=
  match keys with
  | [] => { total := total, complete := false, expired := 0, processed := [], calls := [] }
  | (key, env) :: rest =>
    let total1 := total + 1
    if cfg.limit ≥ 0 ∧ total1 ≥ cfg.limit then
      { total := total1, complete := true, expired := 0, processed := [], calls := [] }
    else
      let r := processKey cfg env key
      let b := batchLoop cfg rest total1
      { total := b.total, complete := b.complete,
        expired := (if r.1 then 1 else 0) + b.expired,
        processed := key :: b.processed,
        calls := r.2 ++ b.calls }

/-- Outcome of one `SCAN` fetch attempt: `fail` is a transport error of the
`SCAN` call or a parse error of its reply (both make `main` sleep one second
and `continue` with the state unchanged); `ok cursor batch` is a parsed
reply with the next cursor and the returned keys (each paired with its
`KeyEnv`). -/
inductive FetchResult where
  | fail
  | ok (cursor : Int) (batch : List (String × KeyEnv))
deriving DecidableEq, Repr

/-- Scan state of `main`: `var scan struct { cursor; batch; total; complete }`
(the `batch` field is consumed immediately, so it is not carried here). -/
structure ScanState where
  cursor : Int
  total : Int
  complete : Bool
deriving DecidableEq, Repr

/-- The three counters of the stats goroutine; the final snapshot printed at
shutdown is the sum of all increments received. -/
structure Stats where
  scans : Int
  keys : Int
  expired : Int
deriving DecidableEq, Repr

/-- Observables of a finished run: final scan state, final stats snapshot,
keys passed to `processKey` across the whole run in order, all Redis calls
issued by `processKey` across the run, and the number of `SCAN` fetch
attempts issued (successes and failures). -/
structure RunOut where
  state : ScanState
  stats : Stats
  processed : List String
  calls : List RedisCall
  fetches : Nat
deriving DecidableEq, Repr

/-- The outer scan loop of `main` (lines 83-123) driven by a finite trace of
fetch outcomes. One iteration: issue a fetch (consume the next trace
element); on failure, retry with state and stats unchanged; on success, run
the per-key loop, send +1 scan and +len(batch) keys (and the per-key expired
increments) to the stats goroutine, then stop iff `cursor = 0` or
`complete`. Returns `none` if the trace is exhausted before the loop
terminates. -/
def mainLoop (cfg : Config) (trace : List FetchResult) (st : ScanState)
    (stats : Stats) : Option RunOut :=
  match trace with
  | [] => none
  | FetchResult.fail :: rest =>
    (mainLoop cfg rest st stats).map (fun out => { out with fetches := out.fetches + 1 })
  | FetchResult.ok cursor batch :: rest =>
    let b := batchLoop cfg batch st.total
    let st1 : ScanState := { cursor := cursor, total := b.total,
                             complete := st.complete || b.complete }
    let stats1 : Stats := { scans := stats.scans + 1,
                            keys := stats.keys + (batch.length : Int),
                            expired := stats.expired + b.expired }
    if cursor = 0 ∨ st1.complete = true then
      some { state := st1, stats := stats1, processed := b.processed,
             calls := b.calls, fetches := 1 }
    else
      (mainLoop cfg rest st1 stats1).map (fun out =>
        { out with processed := b.processed ++ out.processed,
                   calls := b.calls ++ out.calls,
                   fetches := out.fetches + 1 })

/-- A whole run of `main` from the initial state (`cursor = 0`, `total = 0`,
`complete = false`, all stats counters 0). -/
def run (cfg : Config) (trace : List FetchResult) : Option RunOut :=
  mainLoop cfg trace { cursor := 0, total := 0, complete := false }
    { scans := 0, keys := 0, expired := 0 }

/-- A key environment where every call succeeds and the key has no TTL set. -/
def envOk : KeyEnv := { ttlResult := some (-1), delOk := true, expireOk := true }

/-- With a negative (unbounded) limit the per-key loop never sets the
`complete` latch. -/
theorem batchLoop_complete_of_neg (cfg : Config) (hl : cfg.limit < 0) :
    ∀ keys total, (batchLoop cfg keys total).complete = false := by
  intro keys
  induction keys with
  | nil => intro total; simp [batchLoop]
  | cons p rest ih =>
    intro total
    obtain ⟨key, env⟩ := p
    simp only [batchLoop]
    rw [if_neg (by omega)]
    exact ih (total + 1)

/-- Configuration with limit 5, delete action, no TTL flags, not dry-run. -/
def cfgDel5 : Config :=
  { dryRun := false, limit := 5, ttlSubtract := 0, ttlSet := 0,
    deleteKeys := true, ttlMin := 0 }

/-- A batch of 10 keys whose remote calls all succeed. -/
def keys10 : List (String × KeyEnv) :=
  [("k1", envOk), ("k2", envOk), ("k3", envOk), ("k4", envOk), ("k5", envOk),
   ("k6", envOk), ("k7", envOk), ("k8", envOk), ("k9", envOk), ("k10", envOk)]

/-- C2 counterexample: with limit = 5 and a first fetch returning 10 matching
keys, the run processes 4 keys, not 5: the per-key loop increments `total`
and checks `total >= limit` before invoking `processKey`, so the key that
reaches the limit is itself dropped. -/
theorem limit_five_cutoff_counterexample :
    (run cfgDel5 [FetchResult.ok 7 keys10]).map (fun o => o.processed.length) = some 4 ∧
    (run cfgDel5 [FetchResult.ok 7 keys10]).map (fun o => o.processed.length) ≠ some 5 := by
  constructor <;> decide

/-- C2 (amended): for a run with limit = 5 whose first successful fetch
returns a batch of 10 matching keys, exactly 4 keys (the first four of the
batch) are passed to the Key Action Executor — the key that makes `total`
reach the limit is dropped together with the rest of the batch — and the run
terminates after that batch without issuing a further fetch. -/
theorem limit_five_processes_four (cfg : Config) (c : Int)
    (batch : List (String × KeyEnv)) (rest : List FetchResult)
    (hl : cfg.limit = 5) (hb : batch.length = 10) :
    (run cfg (FetchResult.ok c batch :: rest)).map
        (fun o => (o.processed, o.fetches)) =
      some ((batch.take 4).map Prod.fst, 1) := by
  rcases batch with _ | ⟨⟨k1, e1⟩, batch⟩; · simp at hb
  rcases batch with _ | ⟨⟨k2, e2⟩, batch⟩; · simp at hb
  rcases batch with _ | ⟨⟨k3, e3⟩, batch⟩; · simp at hb
  rcases batch with _ | ⟨⟨k4, e4⟩, batch⟩; · simp at hb
  rcases batch with _ | ⟨⟨k5, e5⟩, batch⟩; · simp at hb
  norm_num [run, mainLoop, batchLoop, hl]

/-- Witness for limit_five_processes_four at the concrete run of C2's
counterexample. -/
theorem limit_five_processes_four_witness :
    cfgDel5.limit = 5 ∧ keys10.length = 10 ∧
    (run cfgDel5 (FetchResult.ok 7 keys10 :: [])).map
        (fun o => (o.processed, o.fetches)) =
      some ((keys10.take 4).map Prod.fst, 1) :=
  ⟨rfl, rfl, limit_five_processes_four cfgDel5 7 keys10 [] rfl rfl⟩

/-- Configuration with an unbounded (negative) limit and the delete action. -/
def cfgNoLimit : Config :=
  { dryRun := false, limit := -1, ttlSubtract := 0, ttlSet := 0,
    deleteKeys := true, ttlMin := 0 }

/-- A batch of 4 keys whose remote calls all succeed. -/
def keys4 : List (String × KeyEnv) :=
  [("a1", envOk), ("a2", envOk), ("a3", envOk), ("a4", envOk)]

/-- A batch of 6 keys whose remote calls all succeed. -/
def keys6 : List (String × KeyEnv) :=
  [("b1", envOk), ("b2", envOk), ("b3", envOk), ("b4", envOk), ("b5", envOk),
   ("b6", envOk)]

/-- The three successful fetches of C3: batches of sizes 4, 6, 0 with
cursors 5, 9, 0. -/
def traceC3 : List FetchResult :=
  [FetchResult.ok 5 keys4, FetchResult.ok 9 keys6, FetchResult.ok 0 []]

/-- C3 counterexample: for an unbounded run over batches of sizes 4, 6, 0
with cursors c1, c2, 0, the final snapshot reports scans = 3 (each of the
three successful fetches, the empty terminal one included, sends +1 scan),
not scans = 2 as claimed; keys = 10 as claimed. -/
theorem stats_scans_counterexample :
    (run cfgNoLimit traceC3).map (fun o => (o.stats.scans, o.stats.keys)) = some (3, 10) ∧
    (run cfgNoLimit traceC3).map (fun o => (o.stats.scans, o.stats.keys)) ≠ some (2, 10) := by
  constructor <;> decide

/-- C3 (amended): for a run with unbounded limit whose three successful
fetches return batches of sizes 4, 6, 0 with cursors c1, c2, 0 (c1, c2
nonzero), the final stats snapshot printed at shutdown reports scans = 3 and
keys = 10: the empty terminal batch with cursor 0 still sends +1 scan and +0
keys before the loop checks termination. -/
theorem stats_three_scans (cfg : Config) (c1 c2 : Int) (b1 b2 : List (String × KeyEnv))
    (rest : List FetchResult) (hl : cfg.limit < 0) (h1 : c1 ≠ 0) (h2 : c2 ≠ 0)
    (hb1 : b1.length = 4) (hb2 : b2.length = 6) :
    (run cfg (FetchResult.ok c1 b1 :: FetchResult.ok c2 b2 :: FetchResult.ok 0 [] :: rest)).map
        (fun o => (o.stats.scans, o.stats.keys)) = some (3, 10) := by
  norm_num [run, mainLoop, batchLoop, h1, h2, hb1, hb2, batchLoop_complete_of_neg cfg hl]

/-- Witness for stats_three_scans at the concrete run of C3's
counterexample. -/
theorem stats_three_scans_witness :
    cfgNoLimit.limit < 0 ∧ (5 : Int) ≠ 0 ∧ (9 : Int) ≠ 0 ∧
    keys4.length = 4 ∧ keys6.length = 6 ∧
    (run cfgNoLimit
        (FetchResult.ok 5 keys4 :: FetchResult.ok 9 keys6 :: FetchResult.ok 0 [] :: [])).map
      (fun o => (o.stats.scans, o.stats.keys)) = some (3, 10) :=
  ⟨by decide, by decide, by decide, rfl, rfl,
   stats_three_scans cfgNoLimit 5 9 keys4 keys6 [] (by decide) (by decide) (by decide) rfl rfl⟩

/-- Every terminated run consumed at least one fetch attempt: the loop body
always begins by issuing a SCAN. -/
theorem mainLoop_fetches_pos (cfg : Config) :
    ∀ (trace : List FetchResult) (st : ScanState) (stats : Stats) (out : RunOut),
      mainLoop cfg trace st stats = some out → 1 ≤ out.fetches := by
  intro trace
  induction trace with
  | nil => intro st stats out h; simp [mainLoop] at h
  | cons o rest ih =>
    intro st stats out h
    cases o with
    | fail =>
      rw [mainLoop] at h
      obtain ⟨out0, h0, hf⟩ := Option.map_eq_some'.mp h
      subst hf
      simp
    | ok cursor batch =>
      rw [mainLoop] at h
      split at h
      · simp only [Option.some.injEq] at h
        subst h
        simp
      · obtain ⟨out0, h0, hf⟩ := Option.map_eq_some'.mp h
        subst hf
        simp

/-- C6: a failed SCAN fetch (transport or parse error) leaves the scan state
unchanged — same cursor, same total, no stats update — and the loop then
retries the same fetch: a run whose trace starts with a failure produces
exactly the same final state, stats snapshot, processed keys and Redis calls
as the run on the remaining trace, with one extra fetch attempt; so a
failure followed by a success counts each batch exactly once and progress
resumes on success. -/
theorem fetch_failure_retry (cfg : Config) (rest : List FetchResult)
    (st : ScanState) (stats : Stats) (out : RunOut)
    (h : mainLoop cfg rest st stats = some out) :
    mainLoop cfg (FetchResult.fail :: rest) st stats =
      some { out with fetches := out.fetches + 1 } := by
  rw [mainLoop, h]
  rfl

/-- The initial scan state of `main`: cursor 0, total 0, latch unset. -/
def initState : ScanState := { cursor := 0, total := 0, complete := false }

/-- The initial stats counters: all zero. -/
def initStats : Stats := { scans := 0, keys := 0, expired := 0 }

/-- The run outcome of a single successful empty fetch with cursor 0. -/
def outEmptyScan : RunOut :=
  { state := initState, stats := { scans := 1, keys := 0, expired := 0 },
    processed := [], calls := [], fetches := 1 }

/-- Witness for fetch_failure_retry: a concrete failure followed by a
successful terminal fetch gives the same outcome as the success alone, with
one extra fetch attempt. -/
theorem fetch_failure_retry_witness :
    mainLoop cfgNoLimit [FetchResult.ok 0 []] initState initStats = some outEmptyScan ∧
    mainLoop cfgNoLimit (FetchResult.fail :: [FetchResult.ok 0 []]) initState initStats =
      some { outEmptyScan with fetches := outEmptyScan.fetches + 1 } :=
  ⟨by decide,
   fetch_failure_retry cfgNoLimit [FetchResult.ok 0 []] initState initStats outEmptyScan
     (by decide)⟩

/-- C7: the run stops after its first fetch iff that fetch returned cursor 0
or the batch set the complete latch via the limit cutoff; and a first fetch
returning cursor 0 ends the run — after processing that batch's keys and
sending its +1 scan / +len(batch) keys stats — with no further fetch ever
issued. -/
theorem scan_loop_termination (cfg : Config) (c : Int) (batch : List (String × KeyEnv))
    (rest : List FetchResult) :
    ((∃ out, run cfg (FetchResult.ok c batch :: rest) = some out ∧ out.fetches = 1) ↔
      c = 0 ∨ (batchLoop cfg batch 0).complete = true)
    ∧ (c = 0 →
        (run cfg (FetchResult.ok c batch :: rest)).map
            (fun o => (o.fetches, o.stats.scans, o.stats.keys, o.processed)) =
          some (1, 1, (batch.length : Int), (batchLoop cfg batch 0).processed)) := by
  constructor
  · constructor
    · rintro ⟨out, hout, hf⟩
      simp only [run, mainLoop, Bool.false_or] at hout
      split at hout
      · assumption
      · obtain ⟨out0, h0, hrw⟩ := Option.map_eq_some'.mp hout
        have := mainLoop_fetches_pos cfg _ _ _ _ h0
        subst hrw
        simp at hf
        omega
    · intro hc
      simp only [run, mainLoop, Bool.false_or]
      rw [if_pos hc]
      exact ⟨_, rfl, rfl⟩
  · intro hc
    simp only [run, mainLoop, Bool.false_or]
    rw [if_pos (Or.inl hc)]
    simp

/-- Witness for scan_loop_termination: a first fetch with cursor 0 over a
concrete 4-key batch stops after one fetch with its stats sent. -/
theorem scan_loop_termination_witness :
    ((∃ out, run cfgNoLimit (FetchResult.ok 0 keys4 :: []) = some out ∧ out.fetches = 1) ↔
      (0 : Int) = 0 ∨ (batchLoop cfgNoLimit keys4 0).complete = true)
    ∧ (run cfgNoLimit (FetchResult.ok 0 keys4 :: [])).map
          (fun o => (o.fetches, o.stats.scans, o.stats.keys, o.processed)) =
        some (1, 1, (keys4.length : Int), (batchLoop cfgNoLimit keys4 0).processed) :=
  ⟨(scan_loop_termination cfgNoLimit 0 keys4 []).1,
   (scan_loop_termination cfgNoLimit 0 keys4 []).2 rfl⟩

/-- Whether a Redis call is the `TTL` fetch. -/
def RedisCall.isTTLFetch : RedisCall → Bool
  | .ttl _ => true
  | _ => false

/-- The action phase adds at most one mutating call to the calls issued so
far: each branch of `processKeyBody` appends either nothing or exactly one
`DEL`/`EXPIRE`. -/
theorem processKeyBody_mut_le (cfg : Config) (env : KeyEnv) (key : String)
    (ttl : Int) (calls : List RedisCall) :
    List.countP (fun c => c.isMutating) (processKeyBody cfg env key ttl calls).2 ≤
      List.countP (fun c => c.isMutating) calls + 1 := by
  unfold processKeyBody
  split_ifs <;>
    simp [List.countP_append, List.countP_cons, RedisCall.isMutating]

/-- When the delete action is configured, the action phase never issues an
`EXPIRE`: the delete branch returns before the subtract-TTL and set-TTL
branches are reached. -/
theorem processKeyBody_no_expire_of_delete (cfg : Config) (env : KeyEnv) (key : String)
    (ttl : Int) (calls : List RedisCall) (hd : cfg.deleteKeys = true) :
    List.countP (fun c => c.isExpire) (processKeyBody cfg env key ttl calls).2 =
      List.countP (fun c => c.isExpire) calls := by
  unfold processKeyBody
  simp only [hd, if_true]
  split_ifs <;> simp [List.countP_append, List.countP_cons, RedisCall.isExpire]

/-- The action phase issues no `TTL` fetch: all TTL fetches of `processKey`
happen before `processKeyBody`. -/
theorem processKeyBody_ttl_count (cfg : Config) (env : KeyEnv) (key : String)
    (ttl : Int) (calls : List RedisCall) :
    List.countP (fun c => c.isTTLFetch) (processKeyBody cfg env key ttl calls).2 =
      List.countP (fun c => c.isTTLFetch) calls := by
  unfold processKeyBody
  split_ifs <;> simp [List.countP_append, List.countP_cons, RedisCall.isTTLFetch]

/-- C4: every invocation of processKey issues at most one remote mutating
call (DEL or EXPIRE); and when delete, ttlSubtract > 0 and ttlSet > 0 are
all simultaneously configured, an eligible key takes only the delete path:
no EXPIRE is ever issued, so delete wins over subtract-TTL, which wins over
set-TTL, and the branches are mutually exclusive. -/
theorem processKey_single_mutation (cfg : Config) (env : KeyEnv) (key : String) :
    List.countP (fun c => c.isMutating) (processKey cfg env key).2 ≤ 1
    ∧ (cfg.deleteKeys = true → 0 < cfg.ttlSubtract → 0 < cfg.ttlSet →
        List.countP (fun c => c.isExpire) (processKey cfg env key).2 = 0) := by
  constructor
  · unfold processKey
    split
    · cases env.ttlResult with
      | none => simp [List.countP_cons, RedisCall.isMutating]
      | some t =>
        have h := processKeyBody_mut_le cfg env key t [RedisCall.ttl key]
        simpa [List.countP_cons, RedisCall.isMutating] using h
    · have h := processKeyBody_mut_le cfg env key 0 []
      simpa using h
  · intro hd hs hset
    unfold processKey
    split
    · cases env.ttlResult with
      | none => simp [List.countP_cons, RedisCall.isExpire]
      | some t =>
        have h := processKeyBody_no_expire_of_delete cfg env key t [RedisCall.ttl key] hd
        simpa [List.countP_cons, RedisCall.isExpire] using h
    · have h := processKeyBody_no_expire_of_delete cfg env key 0 [] hd
      simpa using h

/-- A concrete key name for witnesses. -/
def keyA : String := "k"

/-- Configuration with all three actions configured at once. -/
def cfgAll : Config :=
  { dryRun := false, limit := -1, ttlSubtract := 10, ttlSet := 20,
    deleteKeys := true, ttlMin := 0 }

/-- Witness for processKey_single_mutation with delete, subtract-TTL and
set-TTL all configured on a succeeding key. -/
theorem processKey_single_mutation_witness :
    List.countP (fun c => c.isMutating) (processKey cfgAll envOk keyA).2 ≤ 1
    ∧ cfgAll.deleteKeys = true ∧ (0 : Int) < cfgAll.ttlSubtract ∧ (0 : Int) < cfgAll.ttlSet
    ∧ List.countP (fun c => c.isExpire) (processKey cfgAll envOk keyA).2 = 0 :=
  ⟨(processKey_single_mutation cfgAll envOk keyA).1, rfl, by decide, by decide,
   (processKey_single_mutation cfgAll envOk keyA).2 rfl (by decide) (by decide)⟩

/-- C8: processKey issues a TTL fetch for the key iff ttlMin is nonzero or
ttlSubtract is nonzero; when no fetch is required, the whole invocation is
the evaluator-and-action phase run with the default ttl of 0, and ttlMin
then being 0, matchTTL at that default accepts every key. -/
theorem ttl_fetch_coupling (cfg : Config) (env : KeyEnv) (key : String) :
    (List.countP (fun c => c.isTTLFetch) (processKey cfg env key).2 =
      if cfg.ttlMin ≠ 0 ∨ cfg.ttlSubtract ≠ 0 then 1 else 0)
    ∧ (cfg.ttlMin = 0 → cfg.ttlSubtract = 0 →
        processKey cfg env key = processKeyBody cfg env key 0 [] ∧
        matchTTL 0 cfg.ttlMin = true) := by
  constructor
  · by_cases hn : cfg.ttlMin ≠ 0 ∨ cfg.ttlSubtract ≠ 0
    · simp only [processKey, if_pos hn]
      cases env.ttlResult with
      | none => simp [List.countP_cons, RedisCall.isTTLFetch]
      | some t =>
        rw [processKeyBody_ttl_count cfg env key t [RedisCall.ttl key]]
        simp [List.countP_cons, RedisCall.isTTLFetch]
    · simp only [processKey, if_neg hn]
      have h := processKeyBody_ttl_count cfg env key 0 []
      simp [h, hn]
  · intro h0 hs
    refine ⟨?_, by simp [matchTTL, h0]⟩
    unfold processKey
    rw [if_neg (by simp [h0, hs])]

/-- Witness for ttl_fetch_coupling at a configuration with no TTL-dependent
flags: no fetch is issued and every key is eligible at the default ttl 0. -/
theorem ttl_fetch_coupling_witness :
    List.countP (fun c => c.isTTLFetch) (processKey cfgDel5 envOk keyA).2 = 0
    ∧ cfgDel5.ttlMin = 0 ∧ cfgDel5.ttlSubtract = 0
    ∧ processKey cfgDel5 envOk keyA = processKeyBody cfgDel5 envOk keyA 0 []
    ∧ matchTTL 0 cfgDel5.ttlMin = true :=
  ⟨by have h := (ttl_fetch_coupling cfgDel5 envOk keyA).1; simpa [cfgDel5] using h,
   rfl, rfl,
   ((ttl_fetch_coupling cfgDel5 envOk keyA).2 rfl rfl).1,
   ((ttl_fetch_coupling cfgDel5 envOk keyA).2 rfl rfl).2⟩

/-- In dry-run mode every branch of the action phase returns before issuing
its remote call, so the calls list is returned unchanged. -/
theorem processKeyBody_dry_calls (cfg : Config) (env : KeyEnv) (key : String)
    (ttl : Int) (calls : List RedisCall) (hd : cfg.dryRun = true) :
    (processKeyBody cfg env key ttl calls).2 = calls := by
  unfold processKeyBody
  split_ifs <;> simp_all

/-- In dry-run mode `processKey` issues no mutating call: at most the
non-mutating TTL fetch. -/
theorem processKey_dry_no_mut (cfg : Config) (env : KeyEnv) (key : String)
    (hd : cfg.dryRun = true) :
    List.countP (fun c => c.isMutating) (processKey cfg env key).2 = 0 := by
  unfold processKey
  split
  · cases env.ttlResult with
    | none => simp [List.countP_cons, RedisCall.isMutating]
    | some t =>
      rw [processKeyBody_dry_calls cfg env key t [RedisCall.ttl key] hd]
      simp [List.countP_cons, RedisCall.isMutating]
  · rw [processKeyBody_dry_calls cfg env key 0 [] hd]
    simp

/-- In dry-run mode a whole batch issues no mutating call. -/
theorem batchLoop_dry_no_mut (cfg : Config) (hd : cfg.dryRun = true) :
    ∀ (keys : List (String × KeyEnv)) (t : Int),
      List.countP (fun c => c.isMutating) (batchLoop cfg keys t).calls = 0 := by
  intro keys
  induction keys with
  | nil => intro t; simp [batchLoop]
  | cons p rest ih =>
    intro t
    obtain ⟨key, env⟩ := p
    simp only [batchLoop]
    split
    · simp
    · simp [List.countP_append, ih (t + 1), processKey_dry_no_mut cfg env key hd]

/-- In dry-run mode a whole terminated run issues no mutating call. -/
theorem mainLoop_dry_no_mut (cfg : Config) (hd : cfg.dryRun = true) :
    ∀ (trace : List FetchResult) (st : ScanState) (stats : Stats) (out : RunOut),
      mainLoop cfg trace st stats = some out →
      List.countP (fun c => c.isMutating) out.calls = 0 := by
  intro trace
  induction trace with
  | nil => intro st stats out h; simp [mainLoop] at h
  | cons o rest ih =>
    intro st stats out h
    cases o with
    | fail =>
      rw [mainLoop] at h
      obtain ⟨out0, h0, hf⟩ := Option.map_eq_some'.mp h
      subst hf
      simpa using ih st stats out0 h0
    | ok cursor batch =>
      simp only [mainLoop] at h
      split at h
      · simp only [Option.some.injEq] at h
        subst h
        simpa using batchLoop_dry_no_mut cfg hd batch st.total
      · obtain ⟨out0, h0, hf⟩ := Option.map_eq_some'.mp h
        subst hf
        have h1 := ih _ _ _ h0
        have h2 := batchLoop_dry_no_mut cfg hd batch st.total
        simp [List.countP_append, h1, h2]

/-- C5: with dryRun = true, no mutating call (DEL or EXPIRE) is ever issued
during the whole run, so the store's keys and TTLs are left unchanged; yet
every eligible key with an action configured (delete, ttlSubtract > 0, or
ttlSet > 0) is still reported as expired — whether its TTL was fetched
(conjunct 2) or the default ttl 0 was used (conjunct 3) — and each key
reported expired adds 1 to the expired stat (conjunct 4). -/
theorem dry_run_frame (cfg : Config) (hdry : cfg.dryRun = true) :
    (∀ trace out, run cfg trace = some out →
       List.countP (fun c => c.isMutating) out.calls = 0)
    ∧ (∀ env key (t : Int), (cfg.ttlMin ≠ 0 ∨ cfg.ttlSubtract ≠ 0) →
        env.ttlResult = some t → matchTTL t cfg.ttlMin = true →
        (cfg.deleteKeys = true ∨ 0 < cfg.ttlSubtract ∨ 0 < cfg.ttlSet) →
        (processKey cfg env key).1 = true)
    ∧ (cfg.ttlMin = 0 → cfg.ttlSubtract = 0 →
        ∀ env key, (cfg.deleteKeys = true ∨ 0 < cfg.ttlSet) →
        (processKey cfg env key).1 = true)
    ∧ (∀ keys (t : Int), cfg.limit < 0 →
        (batchLoop cfg keys t).expired =
          (List.countP (fun ke => (processKey cfg ke.2 ke.1).1) keys : Int)) := by
  refine ⟨?_, ?_, ?_, ?_⟩
  · intro trace out h
    exact mainLoop_dry_no_mut cfg hdry trace _ _ out h
  · intro env key t hn henv hmatch hact
    have hpk : processKey cfg env key = processKeyBody cfg env key t [RedisCall.ttl key] := by
      unfold processKey
      rw [if_pos hn, henv]
    rw [hpk]
    unfold processKeyBody
    rw [if_neg (not_not_intro hmatch)]
    rcases hact with h | h | h
    · rw [if_pos h, if_pos hdry]
    · by_cases hd : cfg.deleteKeys = true
      · rw [if_pos hd, if_pos hdry]
      · rw [if_neg hd, if_pos h, if_pos hdry]
    · by_cases hd : cfg.deleteKeys = true
      · rw [if_pos hd, if_pos hdry]
      · by_cases hsub : 0 < cfg.ttlSubtract
        · rw [if_neg hd, if_pos hsub, if_pos hdry]
        · rw [if_neg hd, if_neg hsub, if_pos h, if_pos hdry]
  · intro h0 hs env key hact
    have hnreq : ¬ (cfg.ttlMin ≠ 0 ∨ cfg.ttlSubtract ≠ 0) := by simp [h0, hs]
    have hpk : processKey cfg env key = processKeyBody cfg env key 0 [] := by
      unfold processKey
      rw [if_neg hnreq]
    have hm : matchTTL 0 cfg.ttlMin = true := by simp [matchTTL, h0]
    rw [hpk]
    unfold processKeyBody
    rw [if_neg (not_not_intro hm)]
    rcases hact with h | h
    · rw [if_pos h, if_pos hdry]
    · by_cases hd : cfg.deleteKeys = true
      · rw [if_pos hd, if_pos hdry]
      · have hsub : ¬ (0 < cfg.ttlSubtract) := by omega
        rw [if_neg hd, if_neg hsub, if_pos h, if_pos hdry]
  · intro keys
    induction keys with
    | nil => intro t hl; simp [batchLoop]
    | cons p rest ih =>
      intro t hl
      obtain ⟨key, env⟩ := p
      simp only [batchLoop]
      rw [if_neg (by omega)]
      have hrec := ih (t + 1) hl
      by_cases hp : (processKey cfg env key).1 = true <;>
        simp [hp, hrec, List.countP_cons, add_comm]

/-- Dry-run configuration with the delete action configured. -/
def cfgDry : Config :=
  { dryRun := true, limit := -1, ttlSubtract := 0, ttlSet := 0,
    deleteKeys := true, ttlMin := 0 }

/-- The outcome of a concrete dry run over one terminal batch of 4 keys:
all 4 reported expired, no Redis call issued at all. -/
def outDry : RunOut :=
  { state := { cursor := 0, total := 4, complete := false },
    stats := { scans := 1, keys := 4, expired := 4 },
    processed := ["a1", "a2", "a3", "a4"], calls := [], fetches := 1 }

/-- Witness for dry_run_frame at a concrete dry run: no mutating calls,
and an eligible key with the delete action is reported expired. -/
theorem dry_run_frame_witness :
    cfgDry.dryRun = true
    ∧ run cfgDry [FetchResult.ok 0 keys4] = some outDry
    ∧ List.countP (fun c => c.isMutating) outDry.calls = 0
    ∧ (processKey cfgDry envOk keyA).1 = true :=
  ⟨rfl, by decide,
   (dry_run_frame cfgDry rfl).1 [FetchResult.ok 0 keys4] outDry (by decide),
   (dry_run_frame cfgDry rfl).2.2.1 rfl rfl envOk keyA (Or.inl rfl)⟩

/-- When not in dry-run mode and both mutating calls fail, the action phase
reports not-expired in every branch. -/
theorem processKeyBody_fail_false (cfg : Config) (env : KeyEnv) (key : String)
    (ttl : Int) (calls : List RedisCall) (hdry : cfg.dryRun = false)
    (hdel : env.delOk = false) (hexp : env.expireOk = false) :
    (processKeyBody cfg env key ttl calls).1 = false := by
  unfold processKeyBody
  split_ifs <;> simp_all

/-- With a negative (unbounded) limit the per-key loop passes every key of
the batch to `processKey`, whatever the keys' call outcomes are. -/
theorem batchLoop_processed_all (cfg : Config) (hl : cfg.limit < 0) :
    ∀ (keys : List (String × KeyEnv)) (t : Int),
      (batchLoop cfg keys t).processed = keys.map Prod.fst := by
  intro keys
  induction keys with
  | nil => intro t; simp [batchLoop]
  | cons p rest ih =>
    intro t
    obtain ⟨key, env⟩ := p
    simp only [batchLoop]
    rw [if_neg (by omega)]
    simp [ih (t + 1)]

/-- A trace containing a successful fetch with cursor 0 always terminates
the run, whatever the per-key outcomes and earlier failures are. -/
theorem mainLoop_reaches_end (cfg : Config) :
    ∀ (trace : List FetchResult) (st : ScanState) (stats : Stats),
      (∃ b, FetchResult.ok 0 b ∈ trace) →
      (mainLoop cfg trace st stats).isSome = true := by
  intro trace
  induction trace with
  | nil =>
    intro st stats h
    obtain ⟨b, hb⟩ := h
    simp at hb
  | cons o rest ih =>
    intro st stats h
    obtain ⟨b, hb⟩ := h
    cases o with
    | fail =>
      have hmem : FetchResult.ok 0 b ∈ rest := by
        rcases List.mem_cons.mp hb with h1 | h1
        · exact absurd h1 (by simp)
        · exact h1
      rw [mainLoop]
      obtain ⟨out, hout⟩ := Option.isSome_iff_exists.mp (ih st stats ⟨b, hmem⟩)
      rw [hout]
      rfl
    | ok cursor batch =>
      rw [mainLoop]
      split
      · rfl
      · rename_i hcond
        have hc : cursor ≠ 0 := fun h0 => hcond (Or.inl h0)
        have hmem : FetchResult.ok 0 b ∈ rest := by
          rcases List.mem_cons.mp hb with h1 | h1
          · exact absurd (FetchResult.ok.inj h1).1.symm hc
          · exact h1
        obtain ⟨out, hout⟩ := Option.isSome_iff_exists.mp (ih _ _ ⟨b, hmem⟩)
        rw [hout]
        rfl

/-- C9: a failure of the TTL fetch (conjunct 1) or of the DEL and EXPIRE
calls (conjunct 2) makes processKey return not-expired for that key only;
the batch loop still passes every key to processKey (conjunct 3), and the
run still reaches natural termination — where the final stats snapshot is
printed — whenever the store eventually returns cursor 0 (conjunct 4): no
per-key error ever aborts the batch or the run. -/
theorem per_key_errors_recoverable :
    (∀ (cfg : Config) (env : KeyEnv) (key : String),
       (cfg.ttlMin ≠ 0 ∨ cfg.ttlSubtract ≠ 0) → env.ttlResult = none →
       (processKey cfg env key).1 = false)
    ∧ (∀ (cfg : Config) (env : KeyEnv) (key : String), cfg.dryRun = false →
       env.delOk = false → env.expireOk = false →
       (processKey cfg env key).1 = false)
    ∧ (∀ (cfg : Config) (keys : List (String × KeyEnv)) (t : Int), cfg.limit < 0 →
       (batchLoop cfg keys t).processed = keys.map Prod.fst)
    ∧ (∀ (cfg : Config) (trace : List FetchResult) (st : ScanState) (stats : Stats),
       (∃ b, FetchResult.ok 0 b ∈ trace) →
       (mainLoop cfg trace st stats).isSome = true) := by
  refine ⟨?_, ?_, ?_, ?_⟩
  · intro cfg env key hn henv
    unfold processKey
    rw [if_pos hn, henv]
  · intro cfg env key hdry hdel hexp
    unfold processKey
    split
    · cases env.ttlResult with
      | none => rfl
      | some t => exact processKeyBody_fail_false cfg env key t _ hdry hdel hexp
    · exact processKeyBody_fail_false cfg env key 0 _ hdry hdel hexp
  · intro cfg keys t hl
    exact batchLoop_processed_all cfg hl keys t
  · intro cfg trace st stats h
    exact mainLoop_reaches_end cfg trace st stats h

/-- A key environment where every remote call on the key fails. -/
def envFail : KeyEnv := { ttlResult := none, delOk := false, expireOk := false }

/-- Configuration with only the subtract-TTL action, which forces a TTL
fetch. -/
def cfgSub : Config :=
  { dryRun := false, limit := -1, ttlSubtract := 100, ttlSet := 0,
    deleteKeys := false, ttlMin := 0 }

/-- Witness for per_key_errors_recoverable: concrete failing keys are
reported not expired, a batch of keys is fully traversed, and a run with a
failure before the terminal fetch still terminates. -/
theorem per_key_errors_recoverable_witness :
    (cfgSub.ttlMin ≠ 0 ∨ cfgSub.ttlSubtract ≠ 0) ∧ envFail.ttlResult = none
    ∧ (processKey cfgSub envFail keyA).1 = false
    ∧ cfgAll.dryRun = false ∧ envFail.delOk = false ∧ envFail.expireOk = false
    ∧ (processKey cfgAll envFail keyA).1 = false
    ∧ cfgAll.limit < 0
    ∧ (batchLoop cfgAll keys4 0).processed = keys4.map Prod.fst
    ∧ (mainLoop cfgSub [FetchResult.fail, FetchResult.ok 0 []] initState initStats).isSome = true :=
  ⟨by decide, rfl,
   per_key_errors_recoverable.1 cfgSub envFail keyA (by decide) rfl,
   rfl, rfl, rfl,
   per_key_errors_recoverable.2.1 cfgAll envFail keyA rfl rfl rfl,
   by decide,
   per_key_errors_recoverable.2.2.1 cfgAll keys4 0 (by decide),
   per_key_errors_recoverable.2.2.2 cfgSub [FetchResult.fail, FetchResult.ok 0 []]
     initState initStats ⟨[], by decide⟩⟩

/-- The per-key loop advances `total` at least once per processed key, so the
final total dominates the entry total plus the number of processed keys. -/
theorem batchLoop_total_ge (cfg : Config) :
    ∀ (keys : List (String × KeyEnv)) (t : Int),
      t + ((batchLoop cfg keys t).processed.length : Int) ≤ (batchLoop cfg keys t).total := by
  intro keys
  induction keys with
  | nil => intro t; simp [batchLoop]
  | cons p rest ih =>
    intro t
    obtain ⟨key, env⟩ := p
    simp only [batchLoop]
    split
    · dsimp only
      simp only [List.length_nil]
      omega
    · dsimp only
      have h := ih (t + 1)
      simp only [List.length_cons]
      push_cast at h ⊢
      omega

/-- With a nonnegative limit, one batch entered at counter `t` processes at
most `max (limit - 1 - t) 0` keys: every processed key has its
post-increment total strictly below the limit. -/
theorem batchLoop_processed_le (cfg : Config) (hl : 0 ≤ cfg.limit) :
    ∀ (keys : List (String × KeyEnv)) (t : Int),
      ((batchLoop cfg keys t).processed.length : Int) ≤ max (cfg.limit - 1 - t) 0 := by
  intro keys
  induction keys with
  | nil =>
    intro t
    simp only [batchLoop, List.length_nil]
    omega
  | cons p rest ih =>
    intro t
    obtain ⟨key, env⟩ := p
    simp only [batchLoop]
    split
    · dsimp only
      simp only [List.length_nil]
      omega
    · rename_i hcond
      have hlt : t + 1 < cfg.limit := by
        by_contra hge
        exact hcond ⟨hl, by omega⟩
      have h := ih (t + 1)
      dsimp only
      simp only [List.length_cons]
      push_cast at h ⊢
      omega

/-- With a nonnegative limit, a run entered at counter `st.total` processes
at most `max (limit - 1 - st.total) 0` keys in total across all its
batches. -/
theorem mainLoop_processed_le (cfg : Config) (hl : 0 ≤ cfg.limit) :
    ∀ (trace : List FetchResult) (st : ScanState) (stats : Stats) (out : RunOut),
      mainLoop cfg trace st stats = some out →
      (out.processed.length : Int) ≤ max (cfg.limit - 1 - st.total) 0 := by
  intro trace
  induction trace with
  | nil => intro st stats out h; simp [mainLoop] at h
  | cons o rest ih =>
    intro st stats out h
    cases o with
    | fail =>
      rw [mainLoop] at h
      obtain ⟨out0, h0, hf⟩ := Option.map_eq_some'.mp h
      subst hf
      simpa using ih st stats out0 h0
    | ok cursor batch =>
      simp only [mainLoop] at h
      split at h
      · simp only [Option.some.injEq] at h
        subst h
        simpa using batchLoop_processed_le cfg hl batch st.total
      · obtain ⟨out0, h0, hf⟩ := Option.map_eq_some'.mp h
        have h1 := ih _ _ _ h0
        have h2 := batchLoop_processed_le cfg hl batch st.total
        have h3 := batchLoop_total_ge cfg batch st.total
        subst hf
        dsimp only at h1 ⊢
        simp only [List.length_append]
        push_cast at h1 h2 h3 ⊢
        omega

/-- C10: for every run with a configured limit L >= 0 that terminates,
processKey is invoked at most max (L - 1, 0) times in total across all
batches — the key that reaches the limit is itself dropped — at least one
fetch occurs, and with L = 0 no key is ever processed. -/
theorem limit_bounds_processed (cfg : Config) (trace : List FetchResult) (out : RunOut)
    (hl : 0 ≤ cfg.limit) (h : run cfg trace = some out) :
    (out.processed.length : Int) ≤ max (cfg.limit - 1) 0
    ∧ 1 ≤ out.fetches
    ∧ (cfg.limit = 0 → out.processed = []) := by
  unfold run at h
  have h1 := mainLoop_processed_le cfg hl trace _ _ out h
  have h2 := mainLoop_fetches_pos cfg trace _ _ out h
  have h1' : (out.processed.length : Int) ≤ max (cfg.limit - 1 - 0) 0 := h1
  refine ⟨by omega, h2, ?_⟩
  intro h0
  have hlen : out.processed.length = 0 := by omega
  exact List.length_eq_zero.mp hlen

/-- The outcome of the concrete limit-5 run over a 10-key batch. -/
def outLimit5 : RunOut :=
  { state := { cursor := 7, total := 5, complete := true },
    stats := { scans := 1, keys := 10, expired := 4 },
    processed := [("k1" : String), "k2", "k3", "k4"],
    calls := [RedisCall.del ("k1"), RedisCall.del ("k2"), RedisCall.del ("k3"),
              RedisCall.del ("k4")],
    fetches := 1 }

/-- Witness for limit_bounds_processed at the concrete limit-5 run: 4
processed keys, within the bound max (5 - 1) 0. -/
theorem limit_bounds_processed_witness :
    (0 : Int) ≤ cfgDel5.limit
    ∧ run cfgDel5 [FetchResult.ok 7 keys10] = some outLimit5
    ∧ (outLimit5.processed.length : Int) ≤ max (cfgDel5.limit - 1) 0
    ∧ 1 ≤ outLimit5.fetches :=
  ⟨by decide, by decide,
   (limit_bounds_processed cfgDel5 [FetchResult.ok 7 keys10] outLimit5 (by decide) (by decide)).1,
   (limit_bounds_processed cfgDel5 [FetchResult.ok 7 keys10] outLimit5 (by decide) (by decide)).2.1⟩
